import Mathlib

/-!
Verification of the object location directory
(`src/ray/object_manager/object_directory.cc`).

Node and object identities are modelled as the binary strings the source
manipulates (`NodeID::FromBinary` is the identity on the binary form, so it
is dropped).  The GCS client's node accessor is modelled as `GcsNodes`:
`removed` is `Nodes().IsRemoved`, `nodeMap` is `Nodes().GetAll`, `selfId` is
`Nodes().GetSelfId`, and `GcsNodes.get` is `Nodes().Get`.  A `RAY_CHECK`
failure (process abort) is modelled by returning `none`.
-/

/-- One `rpc::ObjectLocationChange` record, with the fields the source
reads: `is_add()`, `node_id()` (binary; empty means the update is a spill
notification), `size()`, `spilled_url()`, `spilled_node_id()`. -/
structure ObjectLocationChange where
  is_add : Bool
  node_id : String
  size : Nat
  spilled_url : String
  spilled_node_id : String
deriving DecidableEq

/-- The per-object state mutated by `UpdateObjectLocations` through the four
out-parameters `node_ids`, `spilled_url`, `spilled_node_id`, `object_size`. -/
structure ObjectState where
  node_ids : Finset String
  spilled_url : String
  spilled_node_id : String
  object_size : Nat
deriving DecidableEq

/-- The node metadata fields of `rpc::GcsNodeInfo` that the source reads:
`node_id()`, `node_manager_address()`, `object_manager_port()`. -/
structure GcsNodeInfo where
  node_id : String
  node_manager_address : String
  object_manager_port : Nat
deriving DecidableEq

/-- The GCS client's node accessor as consumed by the source:
`IsRemoved`, `GetAll`, `GetSelfId` (and `Get`, derived from `nodeMap`). -/
structure GcsNodes where
  removed : String → Bool
  nodeMap : List (String × GcsNodeInfo)
  selfId : String

/-- `Nodes().Get(node_id)`: look the node up in the node map. -/
def GcsNodes.get (gcs : GcsNodes) (node_id : String) : Option GcsNodeInfo :=
  (gcs.nodeMap.find? (fun item => item.1 == node_id)).map Prod.snd

/-- The size assignment at the top of the per-update loop
(object_directory.cc lines 47-49): `if (update.size() > 0) { *object_size =
update.size(); }`. -/
def applySize (st : ObjectState) (u : ObjectLocationChange) : ObjectState :=
  if 0 < u.size then { st with object_size := u.size } else st

/-- The body of the per-update loop of `UpdateObjectLocations`
(object_directory.cc lines 42-71).  The pair carries the state and the
`isUpdated` flag; `none` models the `RAY_CHECK(!update.spilled_url().empty())`
abort. -/
def processUpdate (acc : ObjectState × Bool) (u : ObjectLocationChange) :
    Option (ObjectState × Bool) :=
  let st := applySize acc.1 u
  if u.node_id ≠ "" then
    if u.is_add = true ∧ u.node_id ∉ st.node_ids then
      some ({ st with node_ids := insert u.node_id st.node_ids }, true)
    else if u.is_add = false ∧ u.node_id ∈ st.node_ids then
      some ({ st with node_ids := st.node_ids.erase u.node_id }, true)
    else
      some (st, acc.2)
  else if u.spilled_url = "" then
    none
  else if u.spilled_url ≠ st.spilled_url then
    some ({ st with spilled_url := u.spilled_url,
                    spilled_node_id := u.spilled_node_id }, true)
  else
    some (st, acc.2)

/-- The full per-update loop of `UpdateObjectLocations`, folding
`processUpdate` over the batch in array order. -/
def applyUpdates :
    List ObjectLocationChange → ObjectState × Bool → Option (ObjectState × Bool)
  | [], acc => some acc
  | u :: rest, acc =>
    match processUpdate acc u with
    | none => none
    | some acc' => applyUpdates rest acc'

/-- The post-loop filter pass of `UpdateObjectLocations`
(object_directory.cc lines 73-79): erase every node the GCS reports
removed.  Note the loop does not touch `isUpdated`. -/
def sweepRemoved (removed : String → Bool) (s : Finset String) : Finset String :=
  s.filter (fun n => removed n = false)

/-- `UpdateObjectLocations(location_updates, gcs_client, &node_ids,
&spilled_url, &spilled_node_id, &object_size)` (object_directory.cc
lines 34-82): fold the batch, then sweep removed nodes, and return the
`isUpdated` flag.  `none` models a `RAY_CHECK` abort. -/
def updateObjectLocations (location_updates : List ObjectLocationChange)
    (gcs : GcsNodes) (st : ObjectState) : Option (ObjectState × Bool) :=
  match applyUpdates location_updates (st, false) with
  | none => none
  | some (st1, isUpdated) =>
    some ({ st1 with node_ids := sweepRemoved gcs.removed st1.node_ids }, isUpdated)

/-- Modelled from the spec: `RemoteConnectionInfo` (declared in
object_directory.h, which is not part of the sources here) is "node
identity + address + port" (§3); the source constructs it from a node id
with empty address/port. -/
structure RemoteConnectionInfo where
  node_id : String
  ip : String
  port : Nat
deriving DecidableEq

/-- Modelled from the spec: `Connected()` means "address/port both
populated" (§3). -/
def RemoteConnectionInfo.Connected (c : RemoteConnectionInfo) : Bool :=
  !(c.ip == "") && !(c.port == 0)

/-- `ObjectDirectory::LookupRemoteConnectionInfo` (object_directory.cc
lines 86-95): look the node up; when found, check the stored id matches
(`RAY_CHECK`, modelled as `none` on failure) and fill in address and port
(the port is narrowed by `static_cast<uint16_t>`). -/
def lookupRemoteConnectionInfo (gcs : GcsNodes) (ci : RemoteConnectionInfo) :
    Option RemoteConnectionInfo :=
  match gcs.get ci.node_id with
  | none => some ci
  | some info =>
    if info.node_id = ci.node_id then
      some { ci with ip := info.node_manager_address,
                     port := info.object_manager_port % 65536 }
    else none

/-- The loop of `ObjectDirectory::LookupAllRemoteConnections`
(object_directory.cc lines 97-108) over an explicit node-map list:
resolve each node and keep it when connected and distinct from the local
node. -/
def lookupAllRemote (gcs : GcsNodes) :
    List (String × GcsNodeInfo) → Option (List RemoteConnectionInfo)
  | [] => some []
  | item :: rest =>
    match lookupRemoteConnectionInfo gcs
        { node_id := item.1, ip := "", port := 0 } with
    | none => none
    | some info =>
      match lookupAllRemote gcs rest with
      | none => none
      | some restInfos =>
        if info.Connected = true ∧ info.node_id ≠ gcs.selfId then
          some (info :: restInfos)
        else
          some restInfos

/-- `ObjectDirectory::LookupAllRemoteConnections`: run the loop over
`Nodes().GetAll()`. -/
def lookupAllRemoteConnections (gcs : GcsNodes) : Option (List RemoteConnectionInfo) :=
  lookupAllRemote gcs gcs.nodeMap

/-- One synchronous callback invocation, recording the arguments the
source passes (object_directory.cc lines 125-127): the object id and the
post-update snapshot. -/
structure CallbackInvocation where
  callback_id : String
  object_id : String
  locations : Finset String
  spilled_url : String
  spilled_node_id : String
  object_size : Nat
deriving DecidableEq

/-- One entry of the directory's `listeners_` map: the per-object state
(`current_object_locations`, `spilled_url`, `spilled_node_id`,
`object_size`, bundled as `ObjectState`) and the keys of the `callbacks`
map. -/
structure ObjectListener where
  state : ObjectState
  callbacks : List String
deriving DecidableEq

/-- The callback invocation performed at object_directory.cc lines
125-127: the callback id, object id and the current (post-update) state. -/
def mkInvocation (object_id : String) (st : ObjectState) (callback_id : String) :
    CallbackInvocation :=
  { callback_id := callback_id, object_id := object_id,
    locations := st.node_ids, spilled_url := st.spilled_url,
    spilled_node_id := st.spilled_node_id, object_size := st.object_size }

/-- `ObjectDirectory::HandleNodeRemoved` (object_directory.cc lines
110-131) over an explicit listener list: for each listener whose
locations contain the removed node, run `UpdateObjectLocations` with an
empty batch and invoke every registered callback with the updated state;
other listeners are untouched.  Returns the updated listener list and the
sequence of callback invocations. -/
def handleNodeRemoved (gcs : GcsNodes) (node_id : String) :
    List (String × ObjectListener) →
    Option (List (String × ObjectListener) × List CallbackInvocation)
  | [] => some ([], [])
  | item :: rest =>
    if node_id ∈ item.2.state.node_ids then
      match updateObjectLocations [] gcs item.2.state with
      | none => none
      | some (st', _) =>
        match handleNodeRemoved gcs node_id rest with
        | none => none
        | some (outRest, invsRest) =>
          some ((item.1, { item.2 with state := st' }) :: outRest,
                item.2.callbacks.map (mkInvocation item.1 st') ++ invsRest)
    else
      match handleNodeRemoved gcs node_id rest with
      | none => none
      | some (outRest, invsRest) =>
        some ((item.1, item.2) :: outRest, invsRest)

/-- The state after an empty-batch merge: only the removed-node sweep. -/
def postSweep (gcs : GcsNodes) (st : ObjectState) : ObjectState :=
  { st with node_ids := sweepRemoved gcs.removed st.node_ids }

/-- A GCS view where only node `A` is removed and no node metadata is known. -/
def gcsA : GcsNodes := ⟨fun n => n == "A", [], ""⟩

/-- A GCS view where no node is removed and no node metadata is known. -/
def gcsNone : GcsNodes := ⟨fun _ => false, [], ""⟩

/-- Projection lemmas for `applySize`: only `object_size` can change. -/
theorem applySize_node_ids (st : ObjectState) (u : ObjectLocationChange) :
    (applySize st u).node_ids = st.node_ids := by
  unfold applySize; split <;> rfl

theorem applySize_spilled_url (st : ObjectState) (u : ObjectLocationChange) :
    (applySize st u).spilled_url = st.spilled_url := by
  unfold applySize; split <;> rfl

theorem applySize_spilled_node_id (st : ObjectState) (u : ObjectLocationChange) :
    (applySize st u).spilled_node_id = st.spilled_node_id := by
  unfold applySize; split <;> rfl

theorem applySize_object_size (st : ObjectState) (u : ObjectLocationChange) :
    (applySize st u).object_size = if 0 < u.size then u.size else st.object_size := by
  unfold applySize; split <;> rfl

/-- An empty event batch reduces the merge to the removed-node sweep, with
the `isUpdated` flag left `false`. -/
theorem updateObjectLocations_nil (gcs : GcsNodes) (st : ObjectState) :
    updateObjectLocations [] gcs st = some (postSweep gcs st, false) := rfl

/-- Sweeping twice is the same as sweeping once. -/
theorem sweepRemoved_idem (removed : String → Bool) (s : Finset String) :
    sweepRemoved removed (sweepRemoved removed s) = sweepRemoved removed s := by
  unfold sweepRemoved
  ext n
  simp only [Finset.mem_filter]
  tauto

/-- Claim C1 counterexample: with `locations = {A, B}` and the oracle
reporting `A` removed, an empty-batch merge does remove `A` from the
locations, yet returns `changed = false`, not `changed = true` as the
claim states. -/
theorem claim1_counterexample :
    updateObjectLocations [] gcsA ⟨{"A", "B"}, "", "", 0⟩ =
      some (⟨{"B"}, "", "", 0⟩, false) ∧
    "A" ∉ ({"B"} : Finset String) := by decide

/-- Claim C1 (amended): the post-event sweep filters out every node the
oracle reports as removed, but never marks the result changed: an
empty-batch merge always returns `changed = false`, even when the sweep
actually removes entries. -/
theorem claim1_sweep_removes_without_marking_changed
    (gcs : GcsNodes) (st st' : ObjectState) (c : Bool)
    (h : updateObjectLocations [] gcs st = some (st', c)) :
    st'.node_ids = st.node_ids.filter (fun n => gcs.removed n = false) ∧ c = false := by
  rw [updateObjectLocations_nil] at h
  simp only [Option.some.injEq, Prod.mk.injEq] at h
  obtain ⟨h1, h2⟩ := h
  subst h1
  exact ⟨rfl, h2.symm⟩

/-- Claim C1 witness: the amended theorem applied to `locations = {A, B}`
with `A` removed. -/
theorem claim1_witness :
    updateObjectLocations [] gcsA ⟨{"A", "B"}, "", "", 0⟩ =
      some (⟨{"B"}, "", "", 0⟩, false) ∧
    ((⟨{"B"}, "", "", 0⟩ : ObjectState).node_ids =
        (⟨{"A", "B"}, "", "", 0⟩ : ObjectState).node_ids.filter
          (fun n => gcsA.removed n = false) ∧
      false = false) :=
  ⟨by decide,
   claim1_sweep_removes_without_marking_changed gcsA ⟨{"A", "B"}, "", "", 0⟩
     ⟨{"B"}, "", "", 0⟩ false (by decide)⟩

/-- Claim C3: after any merge call that completes, the resulting location
set contains no node the oracle reports as removed. -/
theorem claim3_no_removed_locations_after_merge
    (location_updates : List ObjectLocationChange) (gcs : GcsNodes)
    (st st' : ObjectState) (c : Bool)
    (h : updateObjectLocations location_updates gcs st = some (st', c)) :
    st'.node_ids.filter (fun n => gcs.removed n = true) = ∅ := by
  unfold updateObjectLocations at h
  cases happly : applyUpdates location_updates (st, false) with
  | none => rw [happly] at h; exact absurd h (by simp)
  | some p =>
    obtain ⟨st1, isUpdated⟩ := p
    rw [happly] at h
    simp only [Option.some.injEq, Prod.mk.injEq] at h
    obtain ⟨h1, _⟩ := h
    subst h1
    ext n
    simp only [sweepRemoved, Finset.mem_filter, Finset.not_mem_empty, iff_false]
    rintro ⟨⟨-, h2⟩, h3⟩
    rw [h2] at h3
    exact absurd h3 (by decide)

/-- Claim C3 witness: the theorem applied to a merge whose input state
contains the removed node `A`. -/
theorem claim3_witness :
    updateObjectLocations [] gcsA ⟨{"A", "B"}, "", "", 0⟩ =
      some (⟨{"B"}, "", "", 0⟩, false) ∧
    (⟨{"B"}, "", "", 0⟩ : ObjectState).node_ids.filter
        (fun n => gcsA.removed n = true) = ∅ :=
  ⟨by decide,
   claim3_no_removed_locations_after_merge [] gcsA ⟨{"A", "B"}, "", "", 0⟩
     ⟨{"B"}, "", "", 0⟩ false (by decide)⟩

/-- Claim C10: the merge can report `changed = true` while leaving the
state exactly as it was: a single `Add("A", 0)` with `"A"` reported
removed and absent from the initial locations returns `true` and the
unchanged state. -/
theorem claim10_changed_true_state_unchanged :
    updateObjectLocations [⟨true, "A", 0, "", ""⟩] gcsA ⟨∅, "", "", 0⟩ =
      some (⟨∅, "", "", 0⟩, true) := by decide

/-- Processing a single update aborts (`RAY_CHECK` failure) exactly when
the update is a spill notification (empty `node_id`) with an empty URL. -/
theorem processUpdate_eq_none_iff (acc : ObjectState × Bool)
    (u : ObjectLocationChange) :
    processUpdate acc u = none ↔ u.node_id = "" ∧ u.spilled_url = "" := by
  simp only [processUpdate]
  split_ifs with h1 h2 h3 h4 h5 <;> simp_all

/-- The update loop aborts exactly when the batch contains a spill
notification with an empty URL. -/
theorem applyUpdates_eq_none_iff :
    ∀ (location_updates : List ObjectLocationChange) (acc : ObjectState × Bool),
      applyUpdates location_updates acc = none ↔
        ∃ u ∈ location_updates, u.node_id = "" ∧ u.spilled_url = ""
  | [], acc => by simp [applyUpdates]
  | u :: rest, acc => by
    simp only [applyUpdates]
    cases hp : processUpdate acc u with
    | none =>
      have hu := (processUpdate_eq_none_iff acc u).mp hp
      simp only [true_iff]
      exact ⟨u, List.mem_cons_self u rest, hu⟩
    | some acc' =>
      rw [applyUpdates_eq_none_iff rest acc']
      have hu : ¬(u.node_id = "" ∧ u.spilled_url = "") := fun hc => by
        rw [(processUpdate_eq_none_iff acc u).mpr hc] at hp
        exact absurd hp (by simp)
      constructor
      · rintro ⟨x, hx, px⟩
        exact ⟨x, List.mem_cons_of_mem u hx, px⟩
      · rintro ⟨x, hx, px⟩
        rcases List.mem_cons.mp hx with hx | hx
        · exact absurd (hx ▸ px) hu
        · exact ⟨x, hx, px⟩

/-- Claim C4: the merge aborts with an invariant violation if and only if
the event batch contains a spill event (empty `node_id`) whose URL is
empty; no other input makes it abort. -/
theorem claim4_fatal_iff_empty_spill_url
    (location_updates : List ObjectLocationChange) (gcs : GcsNodes)
    (st : ObjectState) :
    updateObjectLocations location_updates gcs st = none ↔
      ∃ u ∈ location_updates, u.node_id = "" ∧ u.spilled_url = "" := by
  rw [← applyUpdates_eq_none_iff location_updates (st, false)]
  unfold updateObjectLocations
  cases h : applyUpdates location_updates (st, false) with
  | none => simp
  | some p => obtain ⟨st1, isUpdated⟩ := p; simp

/-- Claim C5 counterexample: a single `Remove` event that carries a
positive size does update `object_size` (from 5 to 7), refuting "only Add
events update the size". -/
theorem claim5_counterexample :
    updateObjectLocations [⟨false, "A", 7, "", ""⟩] gcsNone ⟨{"A"}, "", "", 5⟩ =
      some (⟨∅, "", "", 7⟩, true) ∧ (7 : Nat) ≠ 5 := by decide

/-- Processing one update leaves `object_size` unchanged unless the
update carries a positive size, in which case the size is overwritten. -/
theorem processUpdate_object_size (acc : ObjectState × Bool)
    (u : ObjectLocationChange) (acc' : ObjectState × Bool)
    (h : processUpdate acc u = some acc') :
    acc'.1.object_size = if 0 < u.size then u.size else acc.1.object_size := by
  rw [← applySize_object_size acc.1 u]
  simp only [processUpdate] at h
  split_ifs at h <;> (injection h with h2; subst h2; rfl)

/-- Along a successful run of the update loop, `object_size` is either
untouched or equal to the positive size of some event in the batch. -/
theorem applyUpdates_object_size :
    ∀ (location_updates : List ObjectLocationChange) (acc res : ObjectState × Bool),
      applyUpdates location_updates acc = some res →
      res.1.object_size = acc.1.object_size ∨
        ∃ u ∈ location_updates, 0 < u.size ∧ res.1.object_size = u.size
  | [], acc, res, h => by
    simp only [applyUpdates, Option.some.injEq] at h
    exact Or.inl (by rw [h])
  | u :: rest, acc, res, h => by
    simp only [applyUpdates] at h
    cases hp : processUpdate acc u with
    | none => rw [hp] at h; exact absurd h (by simp)
    | some acc' =>
      rw [hp] at h
      have hsize := processUpdate_object_size acc u acc' hp
      rcases applyUpdates_object_size rest acc' res h with h1 | ⟨x, hx, hxs⟩
      · by_cases hu : 0 < u.size
        · exact Or.inr ⟨u, List.mem_cons_self u rest, hu, by
            rw [h1, hsize, if_pos hu]⟩
        · exact Or.inl (by rw [h1, hsize, if_neg hu])
      · exact Or.inr ⟨x, List.mem_cons_of_mem u hx, hxs⟩

/-- The merge leaves `object_size` unchanged or sets it to the positive
size carried by some event of the batch. -/
theorem updateObjectLocations_object_size
    (location_updates : List ObjectLocationChange) (gcs : GcsNodes)
    (st st' : ObjectState) (c : Bool)
    (h : updateObjectLocations location_updates gcs st = some (st', c)) :
    st'.object_size = st.object_size ∨
      ∃ u ∈ location_updates, 0 < u.size ∧ st'.object_size = u.size := by
  unfold updateObjectLocations at h
  cases happly : applyUpdates location_updates (st, false) with
  | none => rw [happly] at h; exact absurd h (by simp)
  | some p =>
    obtain ⟨st1, isUpdated⟩ := p
    rw [happly] at h
    simp only [Option.some.injEq, Prod.mk.injEq] at h
    obtain ⟨h1, -⟩ := h
    have := applyUpdates_object_size location_updates (st, false) (st1, isUpdated) happly
    rw [← h1]
    exact this

/-- Claim C5 (amended): a batch made only of `Remove` events that carry
size 0 — as genuine deletion records do — or an empty batch leaves
`object_size` unchanged; an update carrying a positive size overwrites
`object_size` regardless of its add/remove mode. -/
theorem claim5_size_unchanged_by_zero_size_removes
    (location_updates : List ObjectLocationChange) (gcs : GcsNodes)
    (st st' : ObjectState) (c : Bool)
    (hrm : ∀ u ∈ location_updates, u.is_add = false ∧ u.node_id ≠ "" ∧ u.size = 0)
    (h : updateObjectLocations location_updates gcs st = some (st', c)) :
    st'.object_size = st.object_size := by
  rcases updateObjectLocations_object_size location_updates gcs st st' c h with
    h1 | ⟨u, hu, hpos, -⟩
  · exact h1
  · rw [(hrm u hu).2.2] at hpos
    exact absurd hpos (by decide)

/-- Claim C5 witness: the amended theorem applied to a one-event batch
removing `A` with size 0. -/
theorem claim5_witness :
    updateObjectLocations [⟨false, "A", 0, "", ""⟩] gcsNone ⟨{"A"}, "", "", 5⟩ =
      some (⟨∅, "", "", 5⟩, true) ∧
    (⟨∅, "", "", 5⟩ : ObjectState).object_size =
      (⟨{"A"}, "", "", 5⟩ : ObjectState).object_size :=
  ⟨by decide,
   claim5_size_unchanged_by_zero_size_removes [⟨false, "A", 0, "", ""⟩] gcsNone
     ⟨{"A"}, "", "", 5⟩ ⟨∅, "", "", 5⟩ true (by decide) (by decide)⟩

/-- Claim C6: `object_size` is monotonic-once-set: a merge never resets a
positive size to 0, and the final size is either the unchanged initial
size or the positive size carried by some event (so an event carrying
size 0 never touches the stored size). -/
theorem claim6_object_size_monotonic
    (location_updates : List ObjectLocationChange) (gcs : GcsNodes)
    (st st' : ObjectState) (c : Bool)
    (h : updateObjectLocations location_updates gcs st = some (st', c)) :
    (0 < st.object_size → 0 < st'.object_size) ∧
    (st'.object_size = st.object_size ∨
      ∃ u ∈ location_updates, 0 < u.size ∧ st'.object_size = u.size) := by
  have hd := updateObjectLocations_object_size location_updates gcs st st' c h
  refine ⟨?_, hd⟩
  intro hpos
  rcases hd with h1 | ⟨u, -, hu, hsz⟩
  · rw [h1]; exact hpos
  · rw [hsz]; exact hu

/-- Claim C6 witness: `Add(A, 100)` then `Add(B, 0)` leaves
`object_size = 100`. -/
theorem claim6_witness :
    updateObjectLocations [⟨true, "A", 100, "", ""⟩, ⟨true, "B", 0, "", ""⟩]
        gcsNone ⟨∅, "", "", 0⟩ =
      some (⟨{"B", "A"}, "", "", 100⟩, true) ∧
    ((0 < (⟨∅, "", "", 0⟩ : ObjectState).object_size →
        0 < (⟨{"B", "A"}, "", "", 100⟩ : ObjectState).object_size) ∧
      ((⟨{"B", "A"}, "", "", 100⟩ : ObjectState).object_size =
          (⟨∅, "", "", 0⟩ : ObjectState).object_size ∨
        ∃ u ∈ [(⟨true, "A", 100, "", ""⟩ : ObjectLocationChange),
               ⟨true, "B", 0, "", ""⟩],
          0 < u.size ∧
            (⟨{"B", "A"}, "", "", 100⟩ : ObjectState).object_size = u.size)) :=
  ⟨by decide,
   claim6_object_size_monotonic
     [⟨true, "A", 100, "", ""⟩, ⟨true, "B", 0, "", ""⟩] gcsNone
     ⟨∅, "", "", 0⟩ ⟨{"B", "A"}, "", "", 100⟩ true (by decide)⟩

/-- Closed form of a one-event `Add` merge: the node is inserted (a
no-op when already present), the sweep runs, the spill fields are
untouched, and `changed` reports exactly whether the node was absent. -/
theorem uol_single_add (gcs : GcsNodes) (e : ObjectLocationChange) (st : ObjectState)
    (hadd : e.is_add = true) (hne : e.node_id ≠ "") :
    updateObjectLocations [e] gcs st =
      some (⟨sweepRemoved gcs.removed (insert e.node_id st.node_ids),
             st.spilled_url, st.spilled_node_id, (applySize st e).object_size⟩,
            decide (e.node_id ∉ st.node_ids)) := by
  by_cases hmem : e.node_id ∈ st.node_ids
  · have hp : processUpdate (st, false) e = some (applySize st e, false) := by
      have hc1 : ¬(e.is_add = true ∧ e.node_id ∉ (applySize st e).node_ids) := by
        rw [applySize_node_ids]
        exact fun hc => hc.2 hmem
      have hc2 : ¬(e.is_add = false ∧ e.node_id ∈ (applySize st e).node_ids) := by
        rw [hadd]
        rintro ⟨hc, -⟩
        exact absurd hc (by decide)
      simp only [processUpdate, if_pos hne, if_neg hc1, if_neg hc2]
    simp only [updateObjectLocations, applyUpdates, hp, Option.some.injEq,
      Prod.mk.injEq]
    refine ⟨?_, by simp [hmem]⟩
    rw [applySize_node_ids, applySize_spilled_url, applySize_spilled_node_id,
      Finset.insert_eq_self.mpr hmem]
  · have hp : processUpdate (st, false) e =
        some ({ applySize st e with
                  node_ids := insert e.node_id (applySize st e).node_ids }, true) := by
      have hc1 : e.is_add = true ∧ e.node_id ∉ (applySize st e).node_ids := by
        rw [applySize_node_ids]
        exact ⟨hadd, hmem⟩
      simp only [processUpdate, if_pos hne, if_pos hc1]
    simp only [updateObjectLocations, applyUpdates, hp, Option.some.injEq,
      Prod.mk.injEq]
    refine ⟨?_, by simp [hmem]⟩
    rw [applySize_node_ids, applySize_spilled_url, applySize_spilled_node_id]

/-- Claim C7 counterexample: with the oracle reporting `A` removed and
`A` absent from the initial locations, applying `Add(A, 1)` twice leaves
the locations identical, but the second application reports
`changed = true`, not `false` as the claim states. -/
theorem claim7_counterexample :
    updateObjectLocations [⟨true, "A", 1, "", ""⟩] gcsA ⟨∅, "", "", 0⟩ =
      some (⟨∅, "", "", 1⟩, true) ∧
    updateObjectLocations [⟨true, "A", 1, "", ""⟩] gcsA ⟨∅, "", "", 1⟩ =
      some (⟨∅, "", "", 1⟩, true) ∧
    true ≠ false := by decide

/-- Claim C7 (amended): applying the same `Add(node, size)` event twice
leaves the state identical and the second application reports
`changed = false`, provided the oracle does not report `node` as removed
(when it does, the post-merge sweep deletes the freshly inserted node
and every re-application reports `changed = true` again). -/
theorem claim7_add_idempotent_when_not_removed
    (gcs : GcsNodes) (e : ObjectLocationChange) (st st1 st2 : ObjectState)
    (c1 c2 : Bool)
    (hadd : e.is_add = true) (hne : e.node_id ≠ "")
    (hrem : gcs.removed e.node_id = false)
    (h1 : updateObjectLocations [e] gcs st = some (st1, c1))
    (h2 : updateObjectLocations [e] gcs st1 = some (st2, c2)) :
    st2 = st1 ∧ c2 = false := by
  rw [uol_single_add gcs e st hadd hne] at h1
  simp only [Option.some.injEq, Prod.mk.injEq] at h1
  obtain ⟨h1s, -⟩ := h1
  subst h1s
  rw [uol_single_add gcs e _ hadd hne] at h2
  simp only [Option.some.injEq, Prod.mk.injEq] at h2
  obtain ⟨h2s, h2c⟩ := h2
  subst h2s
  have hmem1 : e.node_id ∈ sweepRemoved gcs.removed (insert e.node_id st.node_ids) := by
    unfold sweepRemoved
    exact Finset.mem_filter.mpr ⟨Finset.mem_insert_self _ _, hrem⟩
  refine ⟨?_, ?_⟩
  · simp only [ObjectState.mk.injEq]
    refine ⟨?_, trivial, trivial, ?_⟩
    · rw [Finset.insert_eq_self.mpr hmem1, sweepRemoved_idem]
    · by_cases hs : 0 < e.size <;> simp [applySize_object_size, hs]
  · rw [← h2c]
    simp [hmem1]

/-- Claim C7 witness: the amended theorem applied to `Add(A, 5)` on an
empty state under an oracle that reports nothing removed. -/
theorem claim7_witness :
    updateObjectLocations [⟨true, "A", 5, "", ""⟩] gcsNone ⟨∅, "", "", 0⟩ =
      some (⟨{"A"}, "", "", 5⟩, true) ∧
    updateObjectLocations [⟨true, "A", 5, "", ""⟩] gcsNone ⟨{"A"}, "", "", 5⟩ =
      some (⟨{"A"}, "", "", 5⟩, false) ∧
    ((⟨{"A"}, "", "", 5⟩ : ObjectState) = ⟨{"A"}, "", "", 5⟩ ∧ false = false) :=
  ⟨by decide, by decide,
   claim7_add_idempotent_when_not_removed gcsNone ⟨true, "A", 5, "", ""⟩
     ⟨∅, "", "", 0⟩ ⟨{"A"}, "", "", 5⟩ ⟨{"A"}, "", "", 5⟩ true false
     rfl (by decide) rfl (by decide) (by decide)⟩

/-- Closed form of a one-event spill merge with a non-empty URL: if the
URL matches the stored one nothing changes and `changed` stays `false`;
otherwise both spill fields are overwritten and `changed` is `true`. -/
theorem uol_single_spill (gcs : GcsNodes) (e : ObjectLocationChange) (st : ObjectState)
    (hnode : e.node_id = "") (hurl : e.spilled_url ≠ "") :
    updateObjectLocations [e] gcs st =
      (if e.spilled_url ≠ st.spilled_url then
        some (⟨sweepRemoved gcs.removed st.node_ids, e.spilled_url,
               e.spilled_node_id, (applySize st e).object_size⟩, true)
      else
        some (⟨sweepRemoved gcs.removed st.node_ids, st.spilled_url,
               st.spilled_node_id, (applySize st e).object_size⟩, false)) := by
  have hnn : ¬(e.node_id ≠ "") := fun hc => hc hnode
  by_cases hcmp : e.spilled_url ≠ st.spilled_url
  · have hcmp' : e.spilled_url ≠ (applySize st e).spilled_url := by
      rw [applySize_spilled_url]; exact hcmp
    have hp : processUpdate (st, false) e =
        some ({ applySize st e with
                  spilled_url := e.spilled_url,
                  spilled_node_id := e.spilled_node_id }, true) := by
      simp only [processUpdate, if_neg hnn, if_neg hurl, if_pos hcmp']
    rw [if_pos hcmp]
    simp only [updateObjectLocations, applyUpdates, hp, Option.some.injEq,
      Prod.mk.injEq]
    refine ⟨?_, trivial⟩
    rw [applySize_node_ids]
  · have hcmp' : ¬(e.spilled_url ≠ (applySize st e).spilled_url) := by
      rw [applySize_spilled_url]; exact hcmp
    have hp : processUpdate (st, false) e = some (applySize st e, false) := by
      simp only [processUpdate, if_neg hnn, if_neg hurl, if_neg hcmp']
    rw [if_neg hcmp]
    simp only [updateObjectLocations, applyUpdates, hp, Option.some.injEq,
      Prod.mk.injEq]
    refine ⟨?_, trivial⟩
    rw [applySize_node_ids, applySize_spilled_url, applySize_spilled_node_id]

/-- Claim C8: a spill event (with the URL it must carry) whose URL equals
the stored `spilled_url` leaves both spill fields unchanged and reports
no change; a spill event with a different URL overwrites both spill
fields and marks the result changed. -/
theorem claim8_spill_idempotent
    (gcs : GcsNodes) (e : ObjectLocationChange) (st st' : ObjectState) (c : Bool)
    (hnode : e.node_id = "") (hurl : e.spilled_url ≠ "")
    (h : updateObjectLocations [e] gcs st = some (st', c)) :
    (e.spilled_url = st.spilled_url →
      st'.spilled_url = st.spilled_url ∧
        st'.spilled_node_id = st.spilled_node_id ∧ c = false) ∧
    (e.spilled_url ≠ st.spilled_url →
      st'.spilled_url = e.spilled_url ∧
        st'.spilled_node_id = e.spilled_node_id ∧ c = true) := by
  rw [uol_single_spill gcs e st hnode hurl] at h
  by_cases hcmp : e.spilled_url ≠ st.spilled_url
  · rw [if_pos hcmp] at h
    simp only [Option.some.injEq, Prod.mk.injEq] at h
    obtain ⟨hs, hc⟩ := h
    subst hs
    exact ⟨fun heq => absurd heq hcmp, fun _ => ⟨rfl, rfl, hc.symm⟩⟩
  · rw [if_neg hcmp] at h
    simp only [Option.some.injEq, Prod.mk.injEq] at h
    obtain ⟨hs, hc⟩ := h
    subst hs
    exact ⟨fun _ => ⟨rfl, rfl, hc.symm⟩, fun hne => absurd hne hcmp⟩

/-- Claim C8 witness: a second `Spilled("u1", N)` event against a state
already spilled at `"u1"` reports `changed = false` and keeps both spill
fields. -/
theorem claim8_witness :
    updateObjectLocations [⟨false, "", 0, "u1", "N"⟩] gcsNone ⟨∅, "u1", "N", 3⟩ =
      some (⟨∅, "u1", "N", 3⟩, false) ∧
    (("u1" : String) = "u1" →
      (⟨∅, "u1", "N", 3⟩ : ObjectState).spilled_url = "u1" ∧
        (⟨∅, "u1", "N", 3⟩ : ObjectState).spilled_node_id = "N" ∧ false = false) ∧
    (("u1" : String) ≠ "u1" →
      (⟨∅, "u1", "N", 3⟩ : ObjectState).spilled_url = "u1" ∧
        (⟨∅, "u1", "N", 3⟩ : ObjectState).spilled_node_id = "N" ∧ false = true) :=
  ⟨by decide,
   claim8_spill_idempotent gcsNone ⟨false, "", 0, "u1", "N"⟩ ⟨∅, "u1", "N", 3⟩
     ⟨∅, "u1", "N", 3⟩ false rfl (by decide) (by decide)⟩

/-- Every entry produced by the `LookupAllRemoteConnections` loop is
connected and distinct from the local node. -/
theorem lookupAllRemote_mem (gcs : GcsNodes) :
    ∀ (items : List (String × GcsNodeInfo)) (res : List RemoteConnectionInfo),
      lookupAllRemote gcs items = some res →
      ∀ info ∈ res, info.Connected = true ∧ info.node_id ≠ gcs.selfId
  | [], res, h => by
    simp only [lookupAllRemote, Option.some.injEq] at h
    subst h
    intro info hinfo
    exact absurd hinfo (List.not_mem_nil info)
  | item :: rest, res, h => by
    cases hlk : lookupRemoteConnectionInfo gcs
        { node_id := item.1, ip := "", port := 0 } with
    | none =>
      simp only [lookupAllRemote, hlk] at h
      exact Option.noConfusion h
    | some info =>
      cases hrest : lookupAllRemote gcs rest with
      | none =>
        simp only [lookupAllRemote, hlk, hrest] at h
        exact Option.noConfusion h
      | some restInfos =>
        by_cases hc : info.Connected = true ∧ info.node_id ≠ gcs.selfId
        · simp only [lookupAllRemote, hlk, hrest, if_pos hc,
            Option.some.injEq] at h
          subst h
          intro i hi
          rcases List.mem_cons.mp hi with hi | hi
          · rw [hi]; exact hc
          · exact lookupAllRemote_mem gcs rest restInfos hrest i hi
        · simp only [lookupAllRemote, hlk, hrest, if_neg hc,
            Option.some.injEq] at h
          subst h
          intro i hi
          exact lookupAllRemote_mem gcs rest restInfos hrest i hi

/-- Claim C9: every entry returned by `LookupAllRemoteConnections` has a
node identity different from the local node's and has both address and
port populated; nodes failing either condition are filtered out. -/
theorem claim9_connection_filtering (gcs : GcsNodes)
    (res : List RemoteConnectionInfo)
    (h : lookupAllRemoteConnections gcs = some res) :
    ∀ info ∈ res, info.ip ≠ "" ∧ info.port ≠ 0 ∧ info.node_id ≠ gcs.selfId := by
  intro info hinfo
  unfold lookupAllRemoteConnections at h
  obtain ⟨hcon, hself⟩ := lookupAllRemote_mem gcs gcs.nodeMap res h info hinfo
  unfold RemoteConnectionInfo.Connected at hcon
  simp only [Bool.and_eq_true, Bool.not_eq_true', beq_eq_false_iff_ne] at hcon
  exact ⟨hcon.1, hcon.2, hself⟩

/-- A concrete GCS view for exercising the connection filter: the local
node `self`, a reachable peer `n1` and an unreachable peer `n2`. -/
def gcsW : GcsNodes :=
  ⟨fun _ => false,
   [("self", ⟨"self", "addr1", 80⟩), ("n1", ⟨"n1", "addr2", 90⟩),
    ("n2", ⟨"n2", "", 0⟩)],
   "self"⟩

/-- Claim C9 witness: the theorem applied to `gcsW`, whose resolution
returns exactly the reachable non-local peer `n1`. -/
theorem claim9_witness :
    lookupAllRemoteConnections gcsW = some [⟨"n1", "addr2", 90⟩] ∧
    ((⟨"n1", "addr2", 90⟩ : RemoteConnectionInfo).ip ≠ "" ∧
      (⟨"n1", "addr2", 90⟩ : RemoteConnectionInfo).port ≠ 0 ∧
      (⟨"n1", "addr2", 90⟩ : RemoteConnectionInfo).node_id ≠ gcsW.selfId) :=
  ⟨by decide,
   claim9_connection_filtering gcsW [⟨"n1", "addr2", 90⟩] (by decide)
     ⟨"n1", "addr2", 90⟩ (by decide)⟩

/-- Closed form of `HandleNodeRemoved`: every listener whose locations
contain the removed node has its state swept and contributes one
invocation per registered callback, in listener order; other listeners
are untouched and contribute nothing. -/
theorem handleNodeRemoved_eq (gcs : GcsNodes) (node_id : String) :
    ∀ listeners : List (String × ObjectListener),
      handleNodeRemoved gcs node_id listeners =
        some (listeners.map (fun item =>
                if node_id ∈ item.2.state.node_ids then
                  (item.1, { item.2 with state := postSweep gcs item.2.state })
                else item),
              listeners.flatMap (fun item =>
                if node_id ∈ item.2.state.node_ids then
                  item.2.callbacks.map
                    (mkInvocation item.1 (postSweep gcs item.2.state))
                else []))
  | [] => by simp [handleNodeRemoved]
  | item :: rest => by
    by_cases hmem : node_id ∈ item.2.state.node_ids
    · simp only [handleNodeRemoved, if_pos hmem, updateObjectLocations_nil,
        handleNodeRemoved_eq gcs node_id rest, List.map_cons, List.flatMap_cons,
        Option.some.injEq]
    · simp only [handleNodeRemoved, if_neg hmem, updateObjectLocations_nil,
        handleNodeRemoved_eq gcs node_id rest, List.map_cons, List.flatMap_cons,
        Option.some.injEq, List.nil_append]

/-- When every invocation produced for a listener carries that listener's
object id, the object ids are pairwise distinct, and the predicate only
accepts one object id, filtering the concatenated invocations is the same
as filtering the contribution of that object's unique listener. -/
theorem filter_flatMap_single
    (g : String × ObjectListener → List CallbackInvocation)
    (hg : ∀ item inv, inv ∈ g item → inv.object_id = item.1)
    (p : CallbackInvocation → Bool)
    (object_id : String) (l : ObjectListener)
    (hp : ∀ inv, p inv = true → inv.object_id = object_id) :
    ∀ listeners : List (String × ObjectListener),
      (listeners.map Prod.fst).Nodup → (object_id, l) ∈ listeners →
      (listeners.flatMap g).filter p = (g (object_id, l)).filter p
  | [], _, hmem => absurd hmem (List.not_mem_nil _)
  | item :: rest, hnd, hmem => by
    rw [List.flatMap_cons, List.filter_append]
    rw [List.map_cons] at hnd
    have hnotin : item.1 ∉ rest.map Prod.fst := (List.nodup_cons.mp hnd).1
    have hnd' : (rest.map Prod.fst).Nodup := (List.nodup_cons.mp hnd).2
    rcases List.mem_cons.mp hmem with heq | hmem'
    · subst heq
      have hrest0 : (rest.flatMap g).filter p = [] := by
        rw [List.filter_eq_nil_iff]
        intro inv hinv hpinv
        obtain ⟨it, hit, hinvit⟩ := List.mem_flatMap.mp hinv
        apply hnotin
        have h1 : inv.object_id = it.1 := hg it inv hinvit
        have h2 : inv.object_id = object_id := hp inv hpinv
        rw [show ((object_id, l) : String × ObjectListener).1 = object_id from rfl,
          ← h2, h1]
        exact List.mem_map_of_mem Prod.fst hit
      rw [hrest0, List.append_nil]
    · have hne : item.1 ≠ object_id := by
        intro he
        apply hnotin
        rw [he]
        exact List.mem_map_of_mem Prod.fst hmem'
      have hhead : (g item).filter p = [] := by
        rw [List.filter_eq_nil_iff]
        intro inv hinv hpinv
        exact hne ((hg item inv hinv).symm.trans (hp inv hpinv))
      rw [hhead, List.nil_append]
      exact filter_flatMap_single g hg p object_id l hp rest hnd' hmem'

/-- Claim C2: when the removed node is reported removed by the GCS,
`HandleNodeRemoved` gives every tracked object whose locations contain
the node exactly one invocation of each of its registered callbacks,
carrying the post-update snapshot (from which the node has been swept),
and leaves every other tracked object untouched with zero callback
invocations.  Object ids are map keys (pairwise distinct), and a callback
id registered once has count one in its listener's callback list. -/
theorem claim2_node_removed_fanout
    (gcs : GcsNodes) (node_id : String)
    (listeners out : List (String × ObjectListener))
    (invs : List CallbackInvocation)
    (hrem : gcs.removed node_id = true)
    (hids : (listeners.map Prod.fst).Nodup)
    (h : handleNodeRemoved gcs node_id listeners = some (out, invs)) :
    ∀ object_id l, (object_id, l) ∈ listeners →
      (node_id ∈ l.state.node_ids →
        (object_id, { l with state := postSweep gcs l.state }) ∈ out ∧
        node_id ∉ (postSweep gcs l.state).node_ids ∧
        ∀ cb, cb ∈ l.callbacks → l.callbacks.count cb = 1 →
          invs.filter (fun inv =>
              inv.object_id == object_id && inv.callback_id == cb) =
            [mkInvocation object_id (postSweep gcs l.state) cb]) ∧
      (node_id ∉ l.state.node_ids →
        (object_id, l) ∈ out ∧
        invs.filter (fun inv => inv.object_id == object_id) = []) := by
  rw [handleNodeRemoved_eq] at h
  simp only [Option.some.injEq, Prod.mk.injEq] at h
  obtain ⟨rfl, rfl⟩ := h
  have hg : ∀ (item : String × ObjectListener) (inv : CallbackInvocation),
      inv ∈ (if node_id ∈ item.2.state.node_ids then
               item.2.callbacks.map (mkInvocation item.1 (postSweep gcs item.2.state))
             else []) →
      inv.object_id = item.1 := by
    intro item inv hinv
    by_cases him : node_id ∈ item.2.state.node_ids
    · rw [if_pos him] at hinv
      obtain ⟨cb, -, hcb⟩ := List.mem_map.mp hinv
      rw [← hcb]
      rfl
    · rw [if_neg him] at hinv
      exact absurd hinv (List.not_mem_nil inv)
  intro object_id l hmem
  constructor
  · intro hin
    refine ⟨?_, ?_, ?_⟩
    · have hm := List.mem_map_of_mem (fun item : String × ObjectListener =>
        if node_id ∈ item.2.state.node_ids then
          (item.1, { item.2 with state := postSweep gcs item.2.state })
        else item) hmem
      simpa [hin] using hm
    · unfold postSweep sweepRemoved
      simp [Finset.mem_filter, hrem]
    · intro cb hcb hcount
      have hp : ∀ inv : CallbackInvocation,
          (inv.object_id == object_id && inv.callback_id == cb) = true →
          inv.object_id = object_id := by
        intro inv hpv
        simp only [Bool.and_eq_true, beq_iff_eq] at hpv
        exact hpv.1
      rw [filter_flatMap_single _ hg _ object_id l hp listeners hids hmem]
      simp only [if_pos hin, List.filter_map]
      have hcomp : ((fun inv : CallbackInvocation =>
          inv.object_id == object_id && inv.callback_id == cb) ∘
            (mkInvocation object_id (postSweep gcs l.state))) =
          fun cb' => cb' == cb := by
        funext cb'
        simp [mkInvocation, Function.comp]
      rw [hcomp, List.filter_beq, hcount]
      simp
  · intro hnot
    constructor
    · have hm := List.mem_map_of_mem (fun item : String × ObjectListener =>
        if node_id ∈ item.2.state.node_ids then
          (item.1, { item.2 with state := postSweep gcs item.2.state })
        else item) hmem
      simpa [hnot] using hm
    · have hp : ∀ inv : CallbackInvocation,
          (inv.object_id == object_id) = true → inv.object_id = object_id := by
        intro inv hpv
        exact beq_iff_eq.mp hpv
      rw [filter_flatMap_single _ hg _ object_id l hp listeners hids hmem]
      simp [if_neg hnot]

/-- The spec's fan-out example: X holds `{A}`, Y holds `{A, B}`, Z holds
`{B}`, each with a single subscriber. -/
def listenersW : List (String × ObjectListener) :=
  [("X", ⟨⟨{"A"}, "", "", 0⟩, ["x1"]⟩),
   ("Y", ⟨⟨{"A", "B"}, "", "", 0⟩, ["y1"]⟩),
   ("Z", ⟨⟨{"B"}, "", "", 0⟩, ["z1"]⟩)]

/-- The listener map after `HandleNodeRemoved(A)` on `listenersW`. -/
def outW : List (String × ObjectListener) :=
  [("X", ⟨⟨∅, "", "", 0⟩, ["x1"]⟩),
   ("Y", ⟨⟨{"B"}, "", "", 0⟩, ["y1"]⟩),
   ("Z", ⟨⟨{"B"}, "", "", 0⟩, ["z1"]⟩)]

/-- The callback invocations fired by `HandleNodeRemoved(A)` on
`listenersW`: one for X, one for Y, none for Z. -/
def invsW : List CallbackInvocation :=
  [⟨"x1", "X", ∅, "", "", 0⟩, ⟨"y1", "Y", {"B"}, "", "", 0⟩]

/-- Claim C2 witness: the fan-out theorem applied to the X/Y/Z example,
extracting X's exactly-once invocation with the swept snapshot. -/
theorem claim2_witness :
    gcsA.removed "A" = true ∧
    (listenersW.map Prod.fst).Nodup ∧
    handleNodeRemoved gcsA "A" listenersW = some (outW, invsW) ∧
    invsW.filter (fun inv => inv.object_id == "X" && inv.callback_id == "x1") =
      [mkInvocation "X" (postSweep gcsA ⟨{"A"}, "", "", 0⟩) "x1"] :=
  ⟨by decide, by decide, by decide,
   ((claim2_node_removed_fanout gcsA "A" listenersW outW invsW (by decide)
       (by decide) (by decide) "X" ⟨⟨{"A"}, "", "", 0⟩, ["x1"]⟩ (by decide)).1
     (by decide)).2.2 "x1" (by decide) (by decide)⟩
